/-
Verification of the route-planning core of this repository
(`3. Path Planning Route/mapUtil.py` and `3. Path Planning Route/submission.py`)
against its natural-language specification.

Modelling conventions:
  * Python `dict` / `collections.defaultdict` values are embedded as
    insertion-ordered association lists `List (String × β)`; updating an
    existing key rewrites it in place, a new key is appended at the end,
    exactly like CPython's insertion-ordered dictionaries.  Reads of a
    `defaultdict` are embedded as `lookup` followed by `getD default`.
  * Python `float` quantities are embedded as `ℚ`.  The haversine
    `computeDistance` uses floating-point trigonometry (`sin`, `cos`,
    `asin`, `sqrt`), which has no exact shallow embedding; every operation
    that calls it is therefore parametrised by an arbitrary metric
    `cd : GeoLocation → GeoLocation → ℚ` standing for `computeDistance`.
    None of the verified properties depend on the metric's values.
  * Fallible Python code (KeyError, ValueError, AssertionError, raise)
    is embedded in `Option` / `Except`.
-/
import Mathlib

set_option linter.unusedVariables false

/-! ### Association-list embedding of Python dictionaries -/

/-- First-occurrence lookup in an insertion-ordered association list,
the embedding of `d[k]` (present-key case) / `k in d`. -/
def lookupA {β : Type} : List (String × β) → String → Option β
  | [], _ => none
  | (k, v) :: rest, key => if k = key then some v else lookupA rest key

/-- The embedding of `d[k] = v`: rewrite the first binding of `k` in place,
or append a fresh binding at the end. -/
def updateA {β : Type} : List (String × β) → String → β → List (String × β)
  | [], key, val => [(key, val)]
  | (k, v) :: rest, key, val =>
      if k = key then (key, val) :: rest else (k, v) :: updateA rest key val

/-- `d[k]` on a `defaultdict` with default `dflt`: the stored value if the
key is present, the default otherwise. -/
def getDefault {β : Type} (d : List (String × β)) (key : String) (dflt : β) : β :=
  (lookupA d key).getD dflt

/-- Key membership, the embedding of `k in d`. -/
def hasKey {β : Type} (d : List (String × β)) (key : String) : Bool :=
  (lookupA d key).isSome

theorem lookupA_updateA {β : Type} (d : List (String × β)) (k k' : String) (v : β) :
    lookupA (updateA d k v) k' = if k = k' then some v else lookupA d k' := by
  induction d with
  | nil => simp [updateA, lookupA]
  | cons hd tl ih =>
    obtain ⟨k0, v0⟩ := hd
    by_cases h0 : k0 = k
    · subst h0
      simp only [updateA, if_pos rfl, lookupA]
      by_cases h1 : k0 = k'
      · simp [h1]
      · simp [h1, lookupA]
    · simp only [updateA, if_neg h0, lookupA]
      by_cases h1 : k0 = k'
      · subst h1
        have hne : ¬ k = k0 := fun h => h0 h.symm
        simp [lookupA, hne, h0]
      · simp [lookupA, h1, ih]

theorem mem_updateA {β : Type} {d : List (String × β)} {k : String} {v : β}
    {p : String × β} : p ∈ updateA d k v → p = (k, v) ∨ p ∈ d := by
  induction d with
  | nil =>
    intro h
    simpa [updateA] using h
  | cons hd tl ih =>
    intro h
    obtain ⟨k0, v0⟩ := hd
    by_cases h0 : k0 = k
    · subst h0
      rw [updateA, if_pos rfl] at h
      rcases List.mem_cons.mp h with h | h
      · exact Or.inl h
      · exact Or.inr (List.mem_cons_of_mem _ h)
    · rw [updateA, if_neg h0] at h
      rcases List.mem_cons.mp h with h | h
      · exact Or.inr (by simp [h])
      · rcases ih h with h' | h'
        · exact Or.inl h'
        · exact Or.inr (List.mem_cons_of_mem _ h')

theorem lookupA_mem {β : Type} {d : List (String × β)} {k : String} {v : β} :
    lookupA d k = some v → (k, v) ∈ d := by
  induction d with
  | nil =>
    intro h
    simp [lookupA] at h
  | cons hd tl ih =>
    intro h
    obtain ⟨k0, v0⟩ := hd
    by_cases h0 : k0 = k
    · subst h0
      rw [lookupA, if_pos rfl] at h
      injection h with h
      subst h
      exact List.mem_cons_self _ _
    · rw [lookupA, if_neg h0] at h
      exact List.mem_cons_of_mem _ (ih h)

/-! ### Sorting (the embedding of Python `sorted` on lists of strings) -/

/-- Insert a string into a (sorted) list, keeping ascending order. -/
def insertSorted (x : String) : List String → List String
  | [] => [x]
  | y :: ys => if x ≤ y then x :: y :: ys else y :: insertSorted x ys

/-- Embedding of Python's `sorted` on lists of strings (ascending
lexicographic order on Unicode code points). -/
def sortStrings (l : List String) : List String :=
  l.foldr insertSorted []

theorem mem_insertSorted {x y : String} {l : List String} :
    y ∈ insertSorted x l ↔ y = x ∨ y ∈ l := by
  induction l with
  | nil => simp [insertSorted]
  | cons hd tl ih =>
    by_cases h : x ≤ hd
    · simp [insertSorted, h]
    · simp only [insertSorted, if_neg h, List.mem_cons, ih]
      tauto

theorem mem_sortStrings {x : String} {l : List String} :
    x ∈ sortStrings l ↔ x ∈ l := by
  induction l with
  | nil => simp [sortStrings]
  | cons hd tl ih =>
    simp only [sortStrings, List.foldr_cons, mem_insertSorted, List.mem_cons]
    rw [sortStrings] at ih
    rw [ih]

theorem sortStrings_eq_nil {l : List String} :
    sortStrings l = [] ↔ l = [] := by
  cases l with
  | nil => simp [sortStrings]
  | cons hd tl =>
    simp only [sortStrings, List.foldr_cons]
    constructor
    · intro h
      exfalso
      have hm : hd ∈ insertSorted hd (List.foldr insertSorted [] tl) :=
        mem_insertSorted.mpr (Or.inl rfl)
      rw [h] at hm
      exact (List.not_mem_nil hd) hm
    · intro h
      exact absurd h (List.cons_ne_nil hd tl)

theorem sorted_insertSorted {x : String} {l : List String}
    (h : List.Sorted (· ≤ ·) l) : List.Sorted (· ≤ ·) (insertSorted x l) := by
  induction l with
  | nil => simp [insertSorted]
  | cons hd tl ih =>
    rw [List.sorted_cons] at h
    obtain ⟨h1, h2⟩ := h
    by_cases hle : x ≤ hd
    · rw [insertSorted, if_pos hle, List.sorted_cons]
      refine ⟨?_, List.sorted_cons.mpr ⟨h1, h2⟩⟩
      intro y hy
      rcases List.mem_cons.mp hy with rfl | hy
      · exact hle
      · exact le_trans hle (h1 y hy)
    · rw [insertSorted, if_neg hle, List.sorted_cons]
      refine ⟨?_, ih h2⟩
      intro y hy
      rcases mem_insertSorted.mp hy with rfl | hy
      · exact le_of_not_le hle
      · exact h1 y hy

theorem sorted_sortStrings (l : List String) :
    List.Sorted (· ≤ ·) (sortStrings l) := by
  induction l with
  | nil => simp [sortStrings]
  | cons hd tl ih =>
    simp only [sortStrings, List.foldr_cons]
    exact sorted_insertSorted ih

/-- The head of the string-sort of `l` is a lower bound for every element
of `l`. -/
theorem sortStrings_head_le {l : List String} {y : String} {rest : List String}
    (h : sortStrings l = y :: rest) {x : String} (hx : x ∈ l) : y ≤ x := by
  have hmem : x ∈ sortStrings l := mem_sortStrings.mpr hx
  rw [h] at hmem
  have hs := sorted_sortStrings l
  rw [h] at hs
  rcases List.mem_cons.mp hmem with rfl | hmem
  · exact le_refl x
  · exact List.rel_of_sorted_cons hs x hmem

/-! ### Geometry and the city map (`mapUtil.py`) -/

/-- `GeoLocation` (mapUtil.py, lines 37-44): an immutable latitude/longitude
pair with structural equality.  Coordinates are embedded as `ℚ`. -/
structure GeoLocation where
  latitude : ℚ
  longitude : ℚ
deriving DecidableEq, Repr

/-- `CityMap` (mapUtil.py, lines 47-60): labelled locations, per-location tag
lists (a `defaultdict(list)`) and the nested distance dictionary
(a `defaultdict(dict)`). -/
structure CityMap where
  geoLocations : List (String × GeoLocation)
  tags : List (String × List String)
  distances : List (String × List (String × ℚ))
deriving DecidableEq, Repr

/-- `CityMap.__init__`: all three dictionaries start empty. -/
def emptyCityMap : CityMap :=
  { geoLocations := [], tags := [], distances := [] }

/-- `makeTag` (mapUtil.py, line 115): tags are `key=value` strings. -/
def makeTag (key value : String) : String :=
  key ++ "=" ++ value

/-- The `defaultdict(list)` read `cityMap.tags[label]`. -/
def CityMap.tagsGet (m : CityMap) (label : String) : List String :=
  getDefault m.tags label []

/-- The `defaultdict(dict)` read `cityMap.distances[label]`. -/
def CityMap.distGet (m : CityMap) (label : String) : List (String × ℚ) :=
  getDefault m.distances label []

/-- `cityMap.distances[a][b]` as an optional value: `some` exactly when the
edge is recorded. -/
def distLookup (m : CityMap) (a b : String) : Option ℚ :=
  lookupA (m.distGet a) b

/-- `CityMap.addLocation` (mapUtil.py, lines 62-66).  The `assert label not in
self.geoLocations` makes a duplicate label fail (embedded as `none`);
otherwise the location is stored and its tag list becomes
`[makeTag "label" label] ++ tags`. -/
def CityMap.addLocation (m : CityMap) (label : String) (location : GeoLocation)
    (tags : List String) : Option CityMap :=
  if hasKey m.geoLocations label then none
  else some { m with
    geoLocations := updateA m.geoLocations label location,
    tags := updateA m.tags label (makeTag "label" label :: tags) }

/-- The two dictionary writes of `CityMap.addConnection` (mapUtil.py,
lines 76-77): `distances[source][target] = d` then
`distances[target][source] = d`, with `defaultdict` creation of missing
inner dictionaries.  The second write re-reads the outer dictionary after
the first, matching CPython's aliasing semantics. -/
def connectDists (d : List (String × List (String × ℚ))) (source target : String)
    (dist : ℚ) : List (String × List (String × ℚ)) :=
  let d1 := updateA d source (updateA (getDefault d source []) target dist)
  updateA d1 target (updateA (getDefault d1 target []) source dist)

/-- `CityMap.addConnection` (mapUtil.py, lines 68-77), parametrised by the
metric `cd` standing for `computeDistance`.  When no explicit distance is
supplied the code reads `self.geoLocations[source]` and
`self.geoLocations[target]` from a plain dict, so an unknown label raises
`KeyError` (embedded as `none`). -/
def CityMap.addConnection (cd : GeoLocation → GeoLocation → ℚ) (m : CityMap)
    (source target : String) (distance : Option ℚ) : Option CityMap :=
  match distance with
  | some dist => some { m with distances := connectDists m.distances source target dist }
  | none =>
    match lookupA m.geoLocations source, lookupA m.geoLocations target with
    | some gs, some gt =>
        some { m with distances := connectDists m.distances source target (cd gs gt) }
    | _, _ => none

/-- `locationFromTag` (mapUtil.py, lines 120-124): sort the labels of all
locations whose tag list contains `tag` and return the first, or `None`
when there is no match. -/
def locationFromTag (tag : String) (m : CityMap) : Option String :=
  (sortStrings ((m.tags.filter (fun p => tag ∈ p.2)).map Prod.fst)).head?

/-! ### Construction sequences over a `CityMap` -/

/-- One mutating call on a `CityMap`: `addLocation(label, location, tags)` or
`addConnection(source, target, distance?)`. -/
inductive BuildOp where
  | addLocation (label : String) (location : GeoLocation) (tags : List String)
  | addConnection (source target : String) (distance : Option ℚ)
deriving DecidableEq, Repr

/-- Apply one call; `none` embeds a raised Python exception
(`AssertionError` for a duplicate label, `KeyError` for a missing
geolocation when the distance is computed). -/
def applyOp (cd : GeoLocation → GeoLocation → ℚ) (m : CityMap) :
    BuildOp → Option CityMap
  | .addLocation label loc tags => m.addLocation label loc tags
  | .addConnection s t dist => CityMap.addConnection cd m s t dist

/-- Run a sequence of calls from a given map, stopping at the first raised
exception. -/
def buildFrom (cd : GeoLocation → GeoLocation → ℚ) (m : CityMap) :
    List BuildOp → Option CityMap
  | [] => some m
  | op :: rest =>
    match applyOp cd m op with
    | some m' => buildFrom cd m' rest
    | none => none

/-- Run a sequence of calls on a freshly constructed (empty) `CityMap`. -/
def build (cd : GeoLocation → GeoLocation → ℚ) (ops : List BuildOp) :
    Option CityMap :=
  buildFrom cd emptyCityMap ops

/-- Every `addConnection` call in the sequence names two labels that are
existing locations at the moment the call runs (this is how every builder
in `mapUtil.py` uses the interface). -/
def opsGuarded (cd : GeoLocation → GeoLocation → ℚ) :
    CityMap → List BuildOp → Bool
  | _, [] => true
  | m, op :: rest =>
    (match op with
     | .addConnection s t _ => hasKey m.geoLocations s && hasKey m.geoLocations t
     | .addLocation _ _ _ => true) &&
    (match applyOp cd m op with
     | some m' => opsGuarded cd m' rest
     | none => true)

/-- Every outer key and every inner key of the `distances` dictionary is a
key of the `geoLocations` dictionary. -/
def covOKb (geo : List (String × GeoLocation))
    (dists : List (String × List (String × ℚ))) : Bool :=
  dists.all (fun p => hasKey geo p.1 && p.2.all (fun q => hasKey geo q.1))

/-! ### Landmarks (`addLandmarks`, mapUtil.py lines 80-109) -/

/-- One parsed entry of the landmark JSON file: a geolocation plus optional
`landmark` and `amenity` fields.  File reading and string parsing are
boundary concerns; entries are embedded already parsed. -/
structure Landmark where
  geo : GeoLocation
  landmark : Option String
  amenity : Option String
deriving DecidableEq, Repr

/-- The tags appended for one landmark entry, in source order: the
`landmark` key first, then the `amenity` key (mapUtil.py lines 107-109). -/
def landmarkTags (item : Landmark) : List String :=
  (match item.landmark with
   | some v => [makeTag "landmark" v]
   | none => []) ++
  (match item.amenity with
   | some v => [makeTag "amenity" v]
   | none => [])

/-- Strict comparison of `(distance, label)` pairs, the embedding of
Python's tuple `<` used by `min` in `addLandmarks`. -/
def pairLt (x y : ℚ × String) : Prop :=
  x.1 < y.1 ∨ (x.1 = y.1 ∧ x.2 < y.2)

instance : DecidablePred fun p : (ℚ × String) × (ℚ × String) => pairLt p.1 p.2 :=
  fun p => by unfold pairLt; infer_instance

instance (x y : ℚ × String) : Decidable (pairLt x y) := by
  unfold pairLt; infer_instance

/-- Non-strict companion of `pairLt`. -/
def pairLe (x y : ℚ × String) : Prop :=
  x.1 < y.1 ∨ (x.1 = y.1 ∧ x.2 ≤ y.2)

theorem pairLe_refl (x : ℚ × String) : pairLe x x :=
  Or.inr ⟨rfl, le_refl _⟩

theorem pairLe_trans {x y z : ℚ × String} (h1 : pairLe x y) (h2 : pairLe y z) :
    pairLe x z := by
  rcases h1 with h1 | ⟨h1, h1'⟩ <;> rcases h2 with h2 | ⟨h2, h2'⟩
  · exact Or.inl (lt_trans h1 h2)
  · exact Or.inl (h2 ▸ h1)
  · exact Or.inl (h1 ▸ h2)
  · exact Or.inr ⟨h1.trans h2, le_trans h1' h2'⟩

theorem pairLt_le {x y : ℚ × String} (h : pairLt x y) : pairLe x y := by
  rcases h with h | ⟨h, h'⟩
  · exact Or.inl h
  · exact Or.inr ⟨h, le_of_lt h'⟩

theorem not_pairLt_le {x y : ℚ × String} (h : ¬ pairLt x y) : pairLe y x := by
  unfold pairLt at h
  push_neg at h
  obtain ⟨h1, h2⟩ := h
  rcases eq_or_lt_of_le h1 with heq | hlt
  · exact Or.inr ⟨heq, h2 heq.symm⟩
  · exact Or.inl hlt

/-- Left fold computing the minimum of a nonempty sequence of
`(distance, label)` pairs, keeping the earliest minimum — the semantics of
Python's `min` on tuples. -/
def minFold (x : ℚ × String) (xs : List (ℚ × String)) : ℚ × String :=
  xs.foldl (fun best c => if pairLt c best then c else best) x

/-- Embedding of `min(generator)`: `none` on an empty sequence (Python
raises `ValueError` there). -/
def minPair : List (ℚ × String) → Option (ℚ × String)
  | [] => none
  | x :: xs => some (minFold x xs)

theorem minFold_mem (x : ℚ × String) (xs : List (ℚ × String)) :
    minFold x xs = x ∨ minFold x xs ∈ xs := by
  induction xs generalizing x with
  | nil => exact Or.inl rfl
  | cons hd tl ih =>
    rw [minFold, List.foldl_cons]
    by_cases h : pairLt hd x
    · rw [if_pos h]
      rcases ih hd with h' | h'
      · exact Or.inr (by rw [minFold] at h'; simp [h'])
      · exact Or.inr (List.mem_cons_of_mem _ (by rwa [minFold] at h'))
    · rw [if_neg h]
      rcases ih x with h' | h'
      · exact Or.inl (by rwa [minFold] at h')
      · exact Or.inr (List.mem_cons_of_mem _ (by rwa [minFold] at h'))

theorem minFold_le (x : ℚ × String) (xs : List (ℚ × String)) :
    pairLe (minFold x xs) x ∧ ∀ c ∈ xs, pairLe (minFold x xs) c := by
  induction xs generalizing x with
  | nil => exact ⟨pairLe_refl x, by simp⟩
  | cons hd tl ih =>
    rw [minFold, List.foldl_cons]
    by_cases h : pairLt hd x
    · rw [if_pos h]
      obtain ⟨ha, hb⟩ := ih hd
      rw [minFold] at ha hb
      refine ⟨pairLe_trans ha (pairLt_le h), ?_⟩
      intro c hc
      rcases List.mem_cons.mp hc with rfl | hc
      · exact ha
      · exact hb c hc
    · rw [if_neg h]
      obtain ⟨ha, hb⟩ := ih x
      rw [minFold] at ha hb
      refine ⟨ha, ?_⟩
      intro c hc
      rcases List.mem_cons.mp hc with rfl | hc
      · exact pairLe_trans ha (not_pairLt_le h)
      · exact hb c hc

/-- The candidate sequence built by the `min` generator in `addLandmarks`:
`(computeDistance(geo, existingGeo), existingLabel)` for each stored
location, in dictionary iteration order. -/
def landmarkCandidates (cd : GeoLocation → GeoLocation → ℚ) (m : CityMap)
    (item : Landmark) : List (ℚ × String) :=
  m.geoLocations.map (fun p => (cd item.geo p.2, p.1))

/-- Processing of one landmark entry inside the loop of `addLandmarks`
(mapUtil.py lines 96-109): find the nearest existing location; append the
entry's tags to that location's tag list when strictly inside the
tolerance, otherwise leave the map unchanged.  `min` over an empty
`geoLocations` raises `ValueError`, embedded as `none`. -/
def addOneLandmark (cd : GeoLocation → GeoLocation → ℚ) (tol : ℚ) (m : CityMap)
    (item : Landmark) : Option CityMap :=
  match minPair (landmarkCandidates cd m item) with
  | none => none
  | some (bestDistance, bestLabel) =>
    if bestDistance < tol then
      some { m with
        tags := updateA m.tags bestLabel
          (m.tagsGet bestLabel ++ landmarkTags item) }
    else
      some m

/-- `addLandmarks` (mapUtil.py lines 80-109) with the landmark file already
parsed into `items` and `toleranceMeters = tol`, parametrised by the
metric `cd` standing for `computeDistance`. -/
def addLandmarks (cd : GeoLocation → GeoLocation → ℚ) (m : CityMap)
    (items : List Landmark) (tol : ℚ) : Option CityMap :=
  match items with
  | [] => some m
  | item :: rest =>
    match addOneLandmark cd tol m item with
    | some m' => addLandmarks cd m' rest tol
    | none => none

/-! ### Search states and problems (`submission.py` and the search engine) -/

/-- Modelled from the spec: the `State` dataclass lives in `util.py`, which is
not present in the repository sources (only its callers are).  Per §3 of
the spec it is "(current location label, optional immutable auxiliary
memory)" with structural equality; `submission.py` constructs it as
`State(location=...)` (memory defaults to none) or
`State(location=..., memory=<tuple of tag strings>)`. -/
structure State where
  location : String
  memory : Option (List String) := none
deriving DecidableEq, Repr

/-- Modelled from the spec: the duck-typed `SearchProblem` interface of the
missing `util.py` — §3 of the spec: "polymorphic over (start state, goal
test, successor generator)"; successors are `(action, nextState, cost)`
triples. -/
structure Problem where
  startState : State
  isEnd : State → Bool
  succ : State → List (String × State × ℚ)

/-- `ShortestPathProblem` (submission.py lines 25-55): constructor data. -/
structure ShortestPathProblem where
  startLocation : String
  endTag : String
  cityMap : CityMap
deriving DecidableEq, Repr

/-- `ShortestPathProblem.startState` (line 38): the start location with
default (absent) memory. -/
def ShortestPathProblem.startState (p : ShortestPathProblem) : State :=
  { location := p.startLocation }

/-- `ShortestPathProblem.isEnd` (line 43): `endTag in cityMap.tags[location]`
(a `defaultdict` read). -/
def ShortestPathProblem.isEnd (p : ShortestPathProblem) (state : State) : Bool :=
  p.endTag ∈ p.cityMap.tagsGet state.location

/-- `ShortestPathProblem.successorsAndCosts` (lines 46-55): one
`(nextLocation, State(nextLocation), distance)` triple per entry of
`cityMap.distances[state.location]`, in dictionary order. -/
def ShortestPathProblem.successorsAndCosts (p : ShortestPathProblem)
    (state : State) : List (String × State × ℚ) :=
  (p.cityMap.distGet state.location).map
    (fun nd => (nd.1, { location := nd.1 }, nd.2))

/-- The three search-problem operations of a `ShortestPathProblem`, packaged
for the engine. -/
def ShortestPathProblem.toProblem (p : ShortestPathProblem) : Problem :=
  { startState := p.startState,
    isEnd := p.isEnd,
    succ := p.successorsAndCosts }

/-- `WaypointsShortestPathProblem` (submission.py lines 92-143): constructor
data.  Build it with `WaypointsShortestPathProblem.make`, which performs
the constructor's canonicalisation. -/
structure WaypointsShortestPathProblem where
  startLocation : String
  endTag : String
  cityMap : CityMap
  waypointTags : List String
deriving DecidableEq, Repr

/-- The constructor (lines 100-108): `self.waypointTags =
tuple(sorted(waypointTags))`. -/
def WaypointsShortestPathProblem.make (startLocation : String)
    (waypointTags : List String) (endTag : String) (cityMap : CityMap) :
    WaypointsShortestPathProblem :=
  { startLocation, endTag, cityMap, waypointTags := sortStrings waypointTags }

/-- `WaypointsShortestPathProblem.startState` (lines 110-114): the start
location carrying the sorted waypoint tags as memory. -/
def WaypointsShortestPathProblem.startState
    (p : WaypointsShortestPathProblem) : State :=
  { location := p.startLocation, memory := some p.waypointTags }

/-- Python truthiness of the `memory` field: `not state.memory` is true for
`None` and for the empty tuple. -/
def memoryFalsy : Option (List String) → Bool
  | none => true
  | some l => l.isEmpty

/-- `WaypointsShortestPathProblem.isEnd` (lines 116-121): the end tag must be
on the current location and `not state.memory` must hold. -/
def WaypointsShortestPathProblem.isEnd (p : WaypointsShortestPathProblem)
    (state : State) : Bool :=
  if p.endTag ∈ p.cityMap.tagsGet state.location then memoryFalsy state.memory
  else false

/-- The memory-update loop of `WaypointsShortestPathProblem.successorsAndCosts`
(lines 132-136): starting from a copy of `memory`, for each `tag` of the
original `memory` that occurs in the current location's tag list, remove
the first occurrence of `tag` from the copy.  (Python uses
`pop(next_state_memory.index(tag))`; the `index` call can never miss,
because each occurrence of a tag in `memory` removes exactly one of its
occurrences from the copy, so `List.erase` is an exact embedding.) -/
def nextMemory (memory : List String) (locTags : List String) : List String :=
  memory.foldl (fun acc tag => if tag ∈ locTags then acc.erase tag else acc) memory

/-- `WaypointsShortestPathProblem.successorsAndCosts` (lines 123-143): for
each neighbour in `cityMap.distances[state.location]`, the successor state
carries the sorted updated memory, and the cost is the edge distance plus
`len(next_state_memory) * 50`.  A state with `memory = None` is
unreachable for this problem (Python would raise `TypeError` on
`list(None)`); it is embedded as the empty successor list. -/
def WaypointsShortestPathProblem.successorsAndCosts
    (p : WaypointsShortestPathProblem) (state : State) :
    List (String × State × ℚ) :=
  match state.memory with
  | none => []
  | some memory =>
    (p.cityMap.distGet state.location).map (fun nd =>
      let newMemory := nextMemory memory (p.cityMap.tagsGet state.location)
      (nd.1,
       { location := nd.1, memory := some (sortStrings newMemory) },
       nd.2 + (newMemory.length : ℚ) * 50))

/-- The three search-problem operations of a `WaypointsShortestPathProblem`,
packaged for the engine. -/
def WaypointsShortestPathProblem.toProblem
    (p : WaypointsShortestPathProblem) : Problem :=
  { startState := p.startState,
    isEnd := p.isEnd,
    succ := p.successorsAndCosts }

/-- `aStarReduction` (submission.py lines 182-207).  The anonymous
`NewSearchProblem` forwards `problem.startState()` and `problem.isEnd(...)`
but builds its successor list from `problem.cityMap.distances` directly:
each successor is `State(location=next_location)` (no memory), with cost
`problem.cityMap.distances[location][next] + heuristic.evaluate(nextState)`.
The duck-typed attribute access `problem.cityMap` is embedded as the extra
`cityMap` argument, always instantiated with the concrete problem's
`cityMap` field; the duck-typed `heuristic.evaluate` is the function
`h`. -/
def aStarReduction (problem : Problem) (cityMap : CityMap)
    (h : State → ℚ) : Problem :=
  { startState := problem.startState,
    isEnd := problem.isEnd,
    succ := fun state =>
      (cityMap.distGet state.location).map (fun nd =>
        (nd.1, { location := nd.1 }, nd.2 + h { location := nd.1 })) }

/-- `ZeroHeuristic.evaluate` (grader.py lines 483-490): `0.0` on every
state. -/
def zeroHeuristicEvaluate : State → ℚ :=
  fun _ => 0

/-- `StraightLineHeuristic` (submission.py lines 214-242): constructor data
plus the precomputed goal coordinates. -/
structure StraightLineHeuristic where
  endTag : String
  cityMap : CityMap
  targets : List GeoLocation
deriving DecidableEq, Repr

/-- `StraightLineHeuristic.__init__` (lines 219-230): collect the
geolocation of every stored location whose tag list contains `endTag`,
in dictionary iteration order. -/
def StraightLineHeuristic.make (endTag : String) (cityMap : CityMap) :
    StraightLineHeuristic :=
  { endTag, cityMap,
    targets := (cityMap.geoLocations.filter
      (fun p => endTag ∈ cityMap.tagsGet p.1)).map Prod.snd }

/-- `StraightLineHeuristic.evaluate` (lines 232-242): look up the state's
geolocation in the plain dict `cityMap.geoLocations` (KeyError — embedded
as `Except.error` — when absent), then fold the targets starting from the
sentinel `10000000.00`, keeping the smallest distance. -/
def StraightLineHeuristic.evaluate (cd : GeoLocation → GeoLocation → ℚ)
    (hr : StraightLineHeuristic) (state : State) : Except String ℚ :=
  match lookupA hr.cityMap.geoLocations state.location with
  | none => Except.error "KeyError"
  | some g =>
    Except.ok (hr.targets.foldl
      (fun best target => if cd target g < best then cd target g else best)
      (10000000 : ℚ))

/-- `NoWaypointsHeuristic.evaluate` (submission.py lines 322-325): the body
is `raise Exception("Not implemented yet")`, unconditionally. -/
def noWaypointsHeuristicEvaluate : State → Except String ℚ :=
  fun _ => Except.error "Not implemented yet"

/-! ### The optimal-cost search engine

Modelled from the spec: `UniformCostSearch` lives in `util.py`, which is not
present in the repository sources (only `submission.py` and `grader.py`
call it).  §4.3 of the spec describes it: a frontier of
(state, best-known-cost, actions) entries explored in minimum-cost-first
order with an explored set; extracting a goal state terminates with its
cost and reconstructed action path; frontier exhaustion yields a defined
"no path" result (`none`).  The recursion is bounded by explicit fuel;
every property proved below holds for every fuel value. -/

/-- One frontier entry: state, cost so far, action path so far. -/
structure FrontierEntry where
  state : State
  cost : ℚ
  actions : List String
deriving DecidableEq, Repr

/-- Extract the earliest minimum-cost entry, returning it and the remaining
frontier. -/
def extractMin : List FrontierEntry → Option (FrontierEntry × List FrontierEntry)
  | [] => none
  | e :: rest =>
    match extractMin rest with
    | none => some (e, [])
    | some (m, others) =>
      if e.cost ≤ m.cost then some (e, rest) else some (m, e :: others)

/-- Modelled from the spec (§4.3): the uniform-cost search loop. -/
def ucsAux (p : Problem) : Nat → List State → List FrontierEntry →
    Option (ℚ × List String)
  | 0, _, _ => none
  | fuel + 1, explored, frontier =>
    match extractMin (frontier.filter (fun e => e.state ∉ explored)) with
    | none => none
    | some (e, rest) =>
      if p.isEnd e.state then some (e.cost, e.actions)
      else
        ucsAux p fuel (e.state :: explored)
          (rest ++ (p.succ e.state).map
            (fun t => { state := t.2.1, cost := e.cost + t.2.2,
                        actions := e.actions ++ [t.1] }))

/-- Modelled from the spec (§4.3): `UniformCostSearch().solve(problem)`,
returning the optimal cost and action path of the first goal state
extracted, or `none` when the frontier exhausts (or fuel runs out). -/
def ucsSolve (p : Problem) (fuel : Nat) : Option (ℚ × List String) :=
  ucsAux p fuel [] [{ state := p.startState, cost := 0, actions := [] }]

/-! ### Shared concrete instances -/

/-- A trivial metric used wherever a concrete stand-in for `computeDistance`
is needed; the verified properties hold for every metric. -/
def cdZero : GeoLocation → GeoLocation → ℚ := fun _ _ => 0

def geoA : GeoLocation := { latitude := 0, longitude := 0 }

def geoB : GeoLocation := { latitude := 0, longitude := 1 }

/-- A two-location map: `A — B` at distance 1, with tags `e` and `w` on `B`. -/
def wpDemoOps : List BuildOp :=
  [BuildOp.addLocation "A" geoA [],
   BuildOp.addLocation "B" geoB ["e", "w"],
   BuildOp.addConnection "A" "B" (some 1)]

def wpDemoMap : CityMap := (build cdZero wpDemoOps).getD emptyCityMap

/-- A waypoint problem on `wpDemoMap`: start at `A`, waypoint `w`,
end tag `e`. -/
def wpDemo : WaypointsShortestPathProblem :=
  WaypointsShortestPathProblem.make "A" ["w"] "e" wpDemoMap

def wpDemoStart : State := wpDemo.startState

/-! ### C1: what `aStarReduction` actually returns -/

/-- **C1.** The claim says `aStarReduction(problem, heuristic)` forwards
`problem`'s successor list unchanged (same actions, same next states
including memory) with only `heuristic.evaluate(nextState)` added to each
cost.  Evaluating the code on a concrete `WaypointsShortestPathProblem`
at its start state: the underlying problem emits the successor
`(B, State(B, memory=("w",)), 51)` (edge cost 1 plus the 50-per-remaining-
waypoint surcharge), while the reduced problem emits `(B, State(B), 1)` —
the memory component is dropped and the cost is the bare
`cityMap.distances` edge cost, because the code enumerates
`problem.cityMap.distances` instead of calling
`problem.successorsAndCosts`.  This contradicts the reduction's own
header comment (UCS on the new problem should equal A* on `problem`) and
makes the grader's `3c-astar-*` tests fail. -/
theorem aStarReduction_drops_memory_and_cost :
    (aStarReduction wpDemo.toProblem wpDemo.cityMap zeroHeuristicEvaluate).succ
        wpDemoStart
      = [("B", { location := "B" }, 1)] ∧
    wpDemo.toProblem.succ wpDemoStart
      = [("B", { location := "B", memory := some ["w"] }, 51)] := by
  have hd : wpDemoMap.distGet "A" = [("B", 1)] := by decide
  have hm : nextMemory ["w"] (wpDemoMap.tagsGet "A") = ["w"] := by decide
  constructor
  · show ((wpDemoMap.distGet "A").map fun nd =>
        (nd.1, State.mk nd.1 none,
         nd.2 + zeroHeuristicEvaluate (State.mk nd.1 none)))
      = [("B", State.mk "B" none, 1)]
    rw [hd]
    simp [zeroHeuristicEvaluate]
  · show ((wpDemoMap.distGet "A").map fun nd =>
        (nd.1,
         State.mk nd.1
           (some (sortStrings (nextMemory ["w"] (wpDemoMap.tagsGet "A")))),
         nd.2 + ((nextMemory ["w"] (wpDemoMap.tagsGet "A")).length : ℚ) * 50))
      = [("B", State.mk "B" (some ["w"]), 51)]
    rw [hd]
    simp only [List.map, hm, sortStrings, List.foldr, insertSorted]
    norm_num

/-! ### C2: the zero-heuristic reduction is the identity on
`ShortestPathProblem` -/

/-- **C2.** For every `ShortestPathProblem`, the problem built by
`aStarReduction(problem, zeroHeuristic)` (the grader's `ZeroHeuristic`
evaluates to `0.0` everywhere) is *equal* to the original problem — same
start state, same goal test, and successor lists identical entry by entry
once the `+ 0.0` is folded away — and therefore the optimal-cost search
returns exactly the same result (same optimal cost, same action path) on
both, for every fuel bound. -/
theorem zeroHeuristic_reduction_identity (p : ShortestPathProblem) :
    aStarReduction p.toProblem p.cityMap zeroHeuristicEvaluate = p.toProblem ∧
    ∀ fuel : Nat,
      ucsSolve (aStarReduction p.toProblem p.cityMap zeroHeuristicEvaluate) fuel
        = ucsSolve p.toProblem fuel := by
  have heq : aStarReduction p.toProblem p.cityMap zeroHeuristicEvaluate
      = p.toProblem := by
    unfold aStarReduction ShortestPathProblem.toProblem
    simp only [Problem.mk.injEq, true_and]
    funext s
    unfold ShortestPathProblem.successorsAndCosts zeroHeuristicEvaluate
    simp
  exact ⟨heq, fun fuel => by rw [heq]⟩

/-! ### C3: the waypoint successor generator -/

theorem foldl_eraseIf (locTags : List String) (todo acc : List String) :
    todo.foldl (fun a t => if t ∈ locTags then a.erase t else a) acc
      = (todo.filter (fun t => t ∈ locTags)).foldl (fun a t => a.erase t) acc := by
  induction todo generalizing acc with
  | nil => rfl
  | cons hd tl ih =>
    by_cases h : hd ∈ locTags
    · simp only [List.foldl_cons, List.filter_cons, h, if_pos, decide_True,
        if_true]
      exact ih (acc.erase hd)
    · simp only [List.foldl_cons, List.filter_cons, h, if_neg, decide_False,
        if_false, Bool.false_eq_true, not_false_eq_true]
      exact ih acc

theorem foldl_erase_cons {x : String} (l : List String)
    (xs : List String) (h : ∀ y ∈ l, y ≠ x) :
    l.foldl (fun a t => a.erase t) (x :: xs)
      = x :: l.foldl (fun a t => a.erase t) xs := by
  induction l generalizing xs with
  | nil => rfl
  | cons hd tl ih =>
    have hne : x ≠ hd := fun he => (h hd (List.mem_cons_self hd tl)) he.symm
    rw [List.foldl_cons, List.foldl_cons, List.erase_cons,
      if_neg (by simp [hne])]
    exact ih (xs.erase hd) (fun y hy => h y (List.mem_cons_of_mem _ hy))

theorem foldl_erase_filter (p : String → Bool) (l : List String) :
    List.foldl (fun a t => a.erase t) l (l.filter p)
      = l.filter (fun t => !(p t)) := by
  induction l with
  | nil => rfl
  | cons x xs ih =>
    by_cases hp : p x = true
    · rw [List.filter_cons, if_pos hp, List.filter_cons,
        if_neg (by simp [hp]), List.foldl_cons, List.erase_cons_head]
      exact ih
    · have hfalse : p x = false := by simpa using hp
      rw [List.filter_cons, if_neg (by simp [hfalse]), List.filter_cons,
        if_pos (by simp [hfalse])]
      rw [foldl_erase_cons]
      · rw [ih]
      · intro y hy he
        have hyp : p y = true := List.of_mem_filter hy
        rw [he, hfalse] at hyp
        exact Bool.false_ne_true hyp

/-- The copy-and-pop loop of the waypoint successor generator removes
exactly the tags present on the current location's tag list: it equals a
filter. -/
theorem nextMemory_eq_filter (memory locTags : List String) :
    nextMemory memory locTags = memory.filter (fun t => t ∉ locTags) := by
  unfold nextMemory
  rw [foldl_eraseIf, foldl_erase_filter (fun t => decide (t ∈ locTags))]
  simp only [decide_not]

/-- **C3.** For every `WaypointsShortestPathProblem` and every state
`(L, memory)`, the successor generator emits one triple per neighbour `N`
of `L` (in `cityMap.distances[L]` order): the next state is at `N` with
memory the sorted result of removing from `memory` every tag occurring on
`L`'s tag list, and the cost is the `L→N` edge distance plus the constant
surcharge `50` multiplied by the number of tags remaining in that next
memory.  In particular the current (e.g. start) location's own tags are
removed before any move. -/
theorem waypoints_successors_spec (p : WaypointsShortestPathProblem)
    (L : String) (memory : List String) :
    p.successorsAndCosts { location := L, memory := some memory } =
      (p.cityMap.distGet L).map (fun nd =>
        (nd.1,
         { location := nd.1,
           memory := some (sortStrings (memory.filter
             (fun t => t ∉ p.cityMap.tagsGet L))) },
         nd.2 + 50 * ((memory.filter
             (fun t => t ∉ p.cityMap.tagsGet L)).length : ℚ))) := by
  unfold WaypointsShortestPathProblem.successorsAndCosts
  simp only [nextMemory_eq_filter]
  congr 1
  funext nd
  rw [mul_comm]

/-! ### C4: symmetry of the distances dictionary -/

/-- Effect of the two dictionary writes of `addConnection` on an arbitrary
`distances[x][y]` read: the `(s,t)` and `(t,s)` cells now hold the written
distance, every other cell is unchanged. -/
theorem distLookup_connectDists
    (d : List (String × List (String × ℚ))) (s t : String) (dist : ℚ)
    (x y : String) :
    lookupA ((lookupA (connectDists d s t dist) x).getD []) y
      = if (x = s ∧ y = t) ∨ (x = t ∧ y = s) then some dist
        else lookupA ((lookupA d x).getD []) y := by
  unfold connectDists getDefault
  simp only [lookupA_updateA]
  by_cases htx : t = x <;> by_cases hsx : s = x <;> by_cases hst : s = t <;>
    by_cases hsy : s = y <;> by_cases hty : t = y <;>
      simp_all [lookupA_updateA]
  all_goals rw [if_neg (by simp_all [eq_comm])]

/-- The distances dictionary reads symmetrically. -/
def DistSymm (m : CityMap) : Prop :=
  ∀ a b, distLookup m a b = distLookup m b a

theorem distSymm_empty : DistSymm emptyCityMap := fun _ _ => rfl

theorem distSymm_connectDists {dists : List (String × List (String × ℚ))}
    (h : ∀ a b, lookupA ((lookupA dists a).getD []) b
        = lookupA ((lookupA dists b).getD []) a)
    (s t : String) (dist : ℚ) (a b : String) :
    lookupA ((lookupA (connectDists dists s t dist) a).getD []) b
      = lookupA ((lookupA (connectDists dists s t dist) b).getD []) a := by
  rw [distLookup_connectDists, distLookup_connectDists]
  by_cases hc : (a = s ∧ b = t) ∨ (a = t ∧ b = s)
  · have hc2 : (b = s ∧ a = t) ∨ (b = t ∧ a = s) := by tauto
    rw [if_pos hc, if_pos hc2]
  · have hc2 : ¬ ((b = s ∧ a = t) ∨ (b = t ∧ a = s)) := by tauto
    rw [if_neg hc, if_neg hc2]
    exact h a b

theorem applyOp_distSymm {cd : GeoLocation → GeoLocation → ℚ} {m : CityMap}
    {op : BuildOp} {m' : CityMap} (h : DistSymm m)
    (happ : applyOp cd m op = some m') : DistSymm m' := by
  cases op with
  | addLocation label loc tags =>
    simp only [applyOp, CityMap.addLocation] at happ
    by_cases hk : hasKey m.geoLocations label = true
    · rw [if_pos hk] at happ
      cases happ
    · rw [if_neg hk] at happ
      injection happ with happ
      subst happ
      exact h
  | addConnection s t dopt =>
    cases dopt with
    | some dist =>
      simp only [applyOp, CityMap.addConnection] at happ
      injection happ with happ
      subst happ
      intro a b
      exact distSymm_connectDists (fun a' b' => h a' b') s t dist a b
    | none =>
      simp only [applyOp, CityMap.addConnection] at happ
      cases hls : lookupA m.geoLocations s with
      | none =>
        rw [hls] at happ
        cases hlt : lookupA m.geoLocations t <;> rw [hlt] at happ <;>
          simp at happ
      | some gs =>
        rw [hls] at happ
        cases hlt : lookupA m.geoLocations t with
        | none =>
          rw [hlt] at happ
          simp at happ
        | some gt =>
          rw [hlt] at happ
          injection happ with happ
          subst happ
          intro a b
          exact distSymm_connectDists (fun a' b' => h a' b') s t (cd gs gt) a b

theorem buildFrom_distSymm {cd : GeoLocation → GeoLocation → ℚ} {m : CityMap}
    {ops : List BuildOp} {m' : CityMap} (h : DistSymm m) :
    buildFrom cd m ops = some m' → DistSymm m' := by
  induction ops generalizing m with
  | nil =>
    intro hb
    injection hb with hb
    subst hb
    exact h
  | cons op rest ih =>
    intro hb
    rw [buildFrom] at hb
    cases happ : applyOp cd m op with
    | none => rw [happ] at hb; cases hb
    | some m1 =>
      rw [happ] at hb
      exact ih (applyOp_distSymm h happ) hb

/-- **C4.** For every metric and every sequence of `addLocation` /
`addConnection` calls (the two mutators of the dictionary) that runs
without raising, the resulting distances dictionary is symmetric:
`distances[a][b]` is present iff `distances[b][a]` is present, and the
stored values are equal — stated as equality of the two optional reads.
`addConnection` always writes both directions with the same value,
whether the cost was supplied explicitly or computed from the metric. -/
theorem build_distances_symmetric (cd : GeoLocation → GeoLocation → ℚ)
    (ops : List BuildOp) (m : CityMap) (h : build cd ops = some m)
    (a b : String) : distLookup m a b = distLookup m b a :=
  buildFrom_distSymm distSymm_empty h a b

def c4Ops : List BuildOp :=
  [BuildOp.addLocation "a" geoA [],
   BuildOp.addLocation "b" geoB [],
   BuildOp.addConnection "a" "b" none,
   BuildOp.addConnection "b" "c" (some 3)]

def c4Map : CityMap := (build cdZero c4Ops).getD emptyCityMap

/-- Witness for C4 at a concrete build (one computed-distance edge and one
explicit-distance edge). -/
theorem build_distances_symmetric_witness :
    build cdZero c4Ops = some c4Map ∧
    distLookup c4Map "b" "c" = distLookup c4Map "c" "b" :=
  ⟨by decide, build_distances_symmetric cdZero c4Ops c4Map (by decide) "b" "c"⟩

/-! ### C6: distances keys versus locations keys -/

theorem hasKey_updateA_of {β : Type} {d : List (String × β)} {k' : String}
    (k : String) (v : β) (h : hasKey d k' = true) :
    hasKey (updateA d k v) k' = true := by
  unfold hasKey at h ⊢
  rw [lookupA_updateA]
  by_cases hk : k = k'
  · simp [hk]
  · simpa [hk] using h

theorem hasKey_of_mem {β : Type} {d : List (String × β)} {k : String} {v : β}
    (h : (k, v) ∈ d) : hasKey d k = true := by
  induction d with
  | nil => cases h
  | cons hd tl ih =>
    obtain ⟨k0, v0⟩ := hd
    by_cases h0 : k0 = k
    · simp [hasKey, lookupA, h0]
    · rcases List.mem_cons.mp h with heq | hm
      · cases heq
        exact absurd rfl h0
      · unfold hasKey
        rw [lookupA, if_neg h0]
        exact ih hm

/-- Every outer key and every inner key of a distances dictionary is a key
of the given locations dictionary (the Prop version of `covOKb`). -/
def CovOK (geo : List (String × GeoLocation))
    (dists : List (String × List (String × ℚ))) : Prop :=
  ∀ p ∈ dists, hasKey geo p.1 = true ∧ ∀ q ∈ p.2, hasKey geo q.1 = true

theorem covOKb_iff {geo : List (String × GeoLocation)}
    {dists : List (String × List (String × ℚ))} :
    covOKb geo dists = true ↔ CovOK geo dists := by
  unfold covOKb CovOK
  simp [List.all_eq_true]

theorem covOK_inner_mem {geo : List (String × GeoLocation)}
    {dists : List (String × List (String × ℚ))} (h : CovOK geo dists)
    (k : String) {q : String × ℚ} (hq : q ∈ (lookupA dists k).getD []) :
    hasKey geo q.1 = true := by
  cases hl : lookupA dists k with
  | none =>
    rw [hl] at hq
    cases hq
  | some inner =>
    rw [hl] at hq
    exact (h _ (lookupA_mem hl)).2 q hq

theorem covOK_updateInner {geo : List (String × GeoLocation)}
    {dists : List (String × List (String × ℚ))} (h : CovOK geo dists)
    {s t : String} (hs : hasKey geo s = true) (ht : hasKey geo t = true)
    (dist : ℚ) :
    CovOK geo (updateA dists s (updateA (getDefault dists s []) t dist)) := by
  intro p hp
  rcases mem_updateA hp with rfl | hp
  · refine ⟨hs, ?_⟩
    intro q hq
    rcases mem_updateA hq with rfl | hq
    · exact ht
    · exact covOK_inner_mem h s hq
  · exact h p hp

theorem covOK_connectDists {geo : List (String × GeoLocation)}
    {dists : List (String × List (String × ℚ))} (h : CovOK geo dists)
    {s t : String} (hs : hasKey geo s = true) (ht : hasKey geo t = true)
    (dist : ℚ) : CovOK geo (connectDists dists s t dist) :=
  covOK_updateInner (covOK_updateInner h hs ht dist) ht hs dist

theorem covOK_geo_mono {geo : List (String × GeoLocation)}
    {dists : List (String × List (String × ℚ))} (h : CovOK geo dists)
    (label : String) (loc : GeoLocation) :
    CovOK (updateA geo label loc) dists := by
  intro p hp
  obtain ⟨h1, h2⟩ := h p hp
  exact ⟨hasKey_updateA_of label loc h1,
    fun q hq => hasKey_updateA_of label loc (h2 q hq)⟩

theorem applyOp_covOK {cd : GeoLocation → GeoLocation → ℚ} {m : CityMap}
    {op : BuildOp} {m' : CityMap} (h : CovOK m.geoLocations m.distances)
    (hg : (match op with
           | BuildOp.addConnection s t _ =>
               hasKey m.geoLocations s && hasKey m.geoLocations t
           | BuildOp.addLocation _ _ _ => true) = true)
    (happ : applyOp cd m op = some m') :
    CovOK m'.geoLocations m'.distances := by
  cases op with
  | addLocation label loc tags =>
    simp only [applyOp, CityMap.addLocation] at happ
    by_cases hk : hasKey m.geoLocations label = true
    · rw [if_pos hk] at happ
      cases happ
    · rw [if_neg hk] at happ
      injection happ with happ
      subst happ
      exact covOK_geo_mono h label loc
  | addConnection s t dopt =>
    simp only [Bool.and_eq_true] at hg
    cases dopt with
    | some dist =>
      simp only [applyOp, CityMap.addConnection] at happ
      injection happ with happ
      subst happ
      exact covOK_connectDists h hg.1 hg.2 dist
    | none =>
      simp only [applyOp, CityMap.addConnection] at happ
      cases hls : lookupA m.geoLocations s with
      | none =>
        rw [hls] at happ
        cases hlt : lookupA m.geoLocations t <;> rw [hlt] at happ <;>
          simp at happ
      | some gs =>
        rw [hls] at happ
        cases hlt : lookupA m.geoLocations t with
        | none =>
          rw [hlt] at happ
          simp at happ
        | some gt =>
          rw [hlt] at happ
          injection happ with happ
          subst happ
          exact covOK_connectDists h hg.1 hg.2 (cd gs gt)

theorem opsGuarded_cons (cd : GeoLocation → GeoLocation → ℚ) (m : CityMap)
    (op : BuildOp) (rest : List BuildOp) :
    opsGuarded cd m (op :: rest) =
      ((match op with
        | BuildOp.addConnection s t _ =>
            hasKey m.geoLocations s && hasKey m.geoLocations t
        | BuildOp.addLocation _ _ _ => true) &&
       (match applyOp cd m op with
        | some m1 => opsGuarded cd m1 rest
        | none => true)) := rfl

theorem buildFrom_covOK {cd : GeoLocation → GeoLocation → ℚ} {m : CityMap}
    {ops : List BuildOp} {m' : CityMap} (h : CovOK m.geoLocations m.distances)
    (hg : opsGuarded cd m ops = true) :
    buildFrom cd m ops = some m' → CovOK m'.geoLocations m'.distances := by
  induction ops generalizing m with
  | nil =>
    intro hb
    injection hb with hb
    subst hb
    exact h
  | cons op rest ih =>
    intro hb
    rw [buildFrom] at hb
    rw [opsGuarded_cons] at hg
    cases happ : applyOp cd m op with
    | none =>
      rw [happ] at hb
      cases hb
    | some m1 =>
      rw [happ] at hb
      rw [happ, Bool.and_eq_true] at hg
      exact ih (applyOp_covOK h hg.1 happ) hg.2 hb

/-- **C6** (amended).  The claim as stated fails: `addConnection` with an
explicit distance never checks that its labels exist, so a connection
between never-added labels populates `distances` with keys missing from
`locations` (see the counterexample).  Amended by the minimal guard the
counterexample forces: for every sequence of `addLocation` /
`addConnection` calls in which each `addConnection` names two labels that
are existing locations at the time of the call — which is how every
builder in `mapUtil.py` uses the interface — every outer and inner key of
the resulting `distances` dictionary is a key of `geoLocations`. -/
theorem build_distances_keys_in_locations (cd : GeoLocation → GeoLocation → ℚ)
    (ops : List BuildOp) (m : CityMap)
    (hg : opsGuarded cd emptyCityMap ops = true)
    (hb : build cd ops = some m) :
    covOKb m.geoLocations m.distances = true :=
  covOKb_iff.mpr (buildFrom_covOK (fun p hp => absurd hp (List.not_mem_nil p)) hg hb)

def c6BadOps : List BuildOp := [BuildOp.addConnection "a" "b" (some 1)]

def c6BadMap : CityMap := (build cdZero c6BadOps).getD emptyCityMap

/-- Counterexample to C6 as stated: a successful build whose `distances`
dictionary holds keys `a` and `b` while `locations` is empty. -/
theorem build_distances_keys_counterexample :
    build cdZero c6BadOps = some c6BadMap ∧
    covOKb c6BadMap.geoLocations c6BadMap.distances = false := by
  constructor
  · decide
  · decide

def c6Ops : List BuildOp :=
  [BuildOp.addLocation "a" geoA [],
   BuildOp.addLocation "b" geoB [],
   BuildOp.addConnection "a" "b" (some 2)]

def c6Map : CityMap := (build cdZero c6Ops).getD emptyCityMap

/-- Witness for the amended C6 at a concrete guarded build. -/
theorem build_distances_keys_in_locations_witness :
    opsGuarded cdZero emptyCityMap c6Ops = true ∧
    build cdZero c6Ops = some c6Map ∧
    covOKb c6Map.geoLocations c6Map.distances = true :=
  ⟨by decide, by decide,
   build_distances_keys_in_locations cdZero c6Ops c6Map (by decide) (by decide)⟩

/-! ### C7: `locationFromTag` -/

/-- **C7.** For every map and tag: `locationFromTag` returns `none` exactly
when no stored tag list contains the tag, and when it returns a label that
label carries the tag and is lexicographically least among all labels
carrying it.  (The function is a pure composition of filter, sort and
head, so repeated calls on an unmodified map trivially coincide, and it
never raises — it is total.) -/
theorem locationFromTag_spec (tag : String) (m : CityMap) :
    (locationFromTag tag m = none ↔ ∀ p ∈ m.tags, tag ∉ p.2) ∧
    (∀ l, locationFromTag tag m = some l →
      (∃ ts, (l, ts) ∈ m.tags ∧ tag ∈ ts) ∧
      (∀ p ∈ m.tags, tag ∈ p.2 → l ≤ p.1)) := by
  unfold locationFromTag
  constructor
  · constructor
    · intro h p hp htag
      cases hs : sortStrings ((m.tags.filter (fun q => tag ∈ q.2)).map Prod.fst) with
      | nil =>
        have hmapnil : (m.tags.filter (fun q => tag ∈ q.2)).map Prod.fst = [] :=
          sortStrings_eq_nil.mp hs
        have hfilnil : m.tags.filter (fun q => tag ∈ q.2) = [] :=
          List.map_eq_nil_iff.mp hmapnil
        have hpf : p ∈ m.tags.filter (fun q => tag ∈ q.2) :=
          List.mem_filter.mpr ⟨hp, by simpa using htag⟩
        rw [hfilnil] at hpf
        cases hpf
      | cons y rest =>
        rw [hs] at h
        cases h
    · intro hall
      cases hs : sortStrings ((m.tags.filter (fun q => tag ∈ q.2)).map Prod.fst) with
      | nil => rfl
      | cons y rest =>
        exfalso
        have hy : y ∈ sortStrings ((m.tags.filter (fun q => tag ∈ q.2)).map Prod.fst) := by
          rw [hs]
          exact List.mem_cons_self y rest
        have hy2 := mem_sortStrings.mp hy
        obtain ⟨p, hpf, hpeq⟩ := List.mem_map.mp hy2
        have hpmem := List.mem_filter.mp hpf
        exact hall p hpmem.1 (by simpa using hpmem.2)
  · intro l hl
    cases hs : sortStrings ((m.tags.filter (fun q => tag ∈ q.2)).map Prod.fst) with
    | nil =>
      rw [hs] at hl
      cases hl
    | cons y rest =>
      rw [hs] at hl
      have hyl : y = l := by
        have : some y = some l := hl
        injection this
      subst hyl
      constructor
      · have hy : y ∈ sortStrings ((m.tags.filter (fun q => tag ∈ q.2)).map Prod.fst) := by
          rw [hs]
          exact List.mem_cons_self y rest
        obtain ⟨p, hpf, hpeq⟩ := List.mem_map.mp (mem_sortStrings.mp hy)
        have hpmem := List.mem_filter.mp hpf
        refine ⟨p.2, ?_, by simpa using hpmem.2⟩
        have hp : p = (y, p.2) := by
          rw [← hpeq]
        rw [← hp]
        exact hpmem.1
      · intro p hp htag
        have hc : p.1 ∈ (m.tags.filter (fun q => tag ∈ q.2)).map Prod.fst :=
          List.mem_map_of_mem _ (List.mem_filter.mpr ⟨hp, by simpa using htag⟩)
        exact sortStrings_head_le hs hc

def c7Map : CityMap :=
  { geoLocations := [],
    tags := [("b", ["u"]), ("a", ["t"]), ("c", ["u"])],
    distances := [] }

/-- Witness for C7: on a concrete map where label `a` carries tag `t`, the
returned label `a` carries the tag and lower-bounds every carrier. -/
theorem locationFromTag_spec_witness :
    (∃ ts, ("a", ts) ∈ c7Map.tags ∧ "t" ∈ ts) ∧
    (∀ p ∈ c7Map.tags, "t" ∈ p.2 → "a" ≤ p.1) :=
  (locationFromTag_spec "t" c7Map).2 "a" (by decide)

/-! ### C8: landmark augmentation -/

theorem minPair_eq_none {l : List (ℚ × String)} : minPair l = none ↔ l = [] := by
  cases l <;> simp [minPair]

theorem minPair_mem {l : List (ℚ × String)} {p : ℚ × String}
    (h : minPair l = some p) : p ∈ l := by
  cases l with
  | nil => cases h
  | cons x xs =>
    rw [minPair] at h
    injection h with h
    subst h
    rcases minFold_mem x xs with h' | h'
    · rw [h']
      exact List.mem_cons_self _ _
    · exact List.mem_cons_of_mem _ h'

theorem minPair_le {l : List (ℚ × String)} {p : ℚ × String}
    (h : minPair l = some p) : ∀ c ∈ l, pairLe p c := by
  cases l with
  | nil => cases h
  | cons x xs =>
    rw [minPair] at h
    injection h with h
    subst h
    intro c hc
    rcases List.mem_cons.mp hc with rfl | hc
    · exact (minFold_le c xs).1
    · exact (minFold_le x xs).2 c hc

theorem addOneLandmark_some (cd : GeoLocation → GeoLocation → ℚ) (tol : ℚ)
    (m : CityMap) (item : Landmark) (h : m.geoLocations ≠ []) :
    ∃ m', addOneLandmark cd tol m item = some m' ∧
      m'.geoLocations = m.geoLocations ∧ m'.distances = m.distances := by
  unfold addOneLandmark
  cases hmin : minPair (landmarkCandidates cd m item) with
  | none =>
    exfalso
    have hnil : landmarkCandidates cd m item = [] := minPair_eq_none.mp hmin
    unfold landmarkCandidates at hnil
    exact h (List.map_eq_nil_iff.mp hnil)
  | some p =>
    obtain ⟨bd, bl⟩ := p
    by_cases htol : bd < tol
    · refine ⟨{ m with
        tags := updateA m.tags bl (m.tagsGet bl ++ landmarkTags item) },
        ?_, rfl, rfl⟩
      show (if bd < tol then some { m with
          tags := updateA m.tags bl (m.tagsGet bl ++ landmarkTags item) }
        else some m) = _
      rw [if_pos htol]
    · refine ⟨m, ?_, rfl, rfl⟩
      show (if bd < tol then some { m with
          tags := updateA m.tags bl (m.tagsGet bl ++ landmarkTags item) }
        else some m) = some m
      rw [if_neg htol]

theorem addLandmarks_cons (cd : GeoLocation → GeoLocation → ℚ) (m : CityMap)
    (item : Landmark) (rest : List Landmark) (tol : ℚ) :
    addLandmarks cd m (item :: rest) tol =
      match addOneLandmark cd tol m item with
      | some m1 => addLandmarks cd m1 rest tol
      | none => none := rfl

theorem addLandmarks_frame (cd : GeoLocation → GeoLocation → ℚ) (m : CityMap)
    (items : List Landmark) (tol : ℚ) (h : m.geoLocations ≠ []) :
    ∃ m', addLandmarks cd m items tol = some m' ∧
      m'.geoLocations = m.geoLocations ∧ m'.distances = m.distances := by
  induction items generalizing m with
  | nil => exact ⟨m, rfl, rfl, rfl⟩
  | cons item rest ih =>
    obtain ⟨m1, hm1, hg1, hd1⟩ := addOneLandmark_some cd tol m item h
    have h1 : m1.geoLocations ≠ [] := by
      rw [hg1]
      exact h
    obtain ⟨m2, hm2, hg2, hd2⟩ := ih m1 h1
    refine ⟨m2, ?_, ?_, ?_⟩
    · rw [addLandmarks_cons, hm1]
      exact hm2
    · rw [hg2, hg1]
    · rw [hd2, hd1]

/-- **C8** (amended).  The claim as stated fails: on a map with no
locations, Python's `min` over the empty candidate generator raises
`ValueError`, so `addLandmarks` is not failure-free (see the
counterexample).  Amended by the minimal hypothesis that counterexample
forces — the map has at least one location.  Then: landmark augmentation
always succeeds and leaves `geoLocations` and `distances` completely
unchanged for every entry list; a single entry whose minimum candidate
distance is not strictly below the tolerance leaves the map entirely
unchanged (silently dropped); and a single entry strictly within
tolerance appends exactly its `landmark`/`amenity` tags to the tag list
of the chosen label, which is an existing location whose `(distance,
label)` pair lower-bounds every location's pair — the single nearest
location with lexicographic tie-break. -/
theorem addLandmarks_spec (cd : GeoLocation → GeoLocation → ℚ) (m : CityMap)
    (items : List Landmark) (tol : ℚ) (hne : m.geoLocations ≠ []) :
    (∃ m', addLandmarks cd m items tol = some m' ∧
       m'.geoLocations = m.geoLocations ∧ m'.distances = m.distances) ∧
    (∀ item bd bl, minPair (landmarkCandidates cd m item) = some (bd, bl) →
       ¬ bd < tol → addLandmarks cd m [item] tol = some m) ∧
    (∀ item bd bl, minPair (landmarkCandidates cd m item) = some (bd, bl) →
       bd < tol →
       addLandmarks cd m [item] tol = some { m with
         tags := updateA m.tags bl (m.tagsGet bl ++ landmarkTags item) } ∧
       hasKey m.geoLocations bl = true ∧
       ∀ p ∈ m.geoLocations, pairLe (bd, bl) (cd item.geo p.2, p.1)) := by
  refine ⟨addLandmarks_frame cd m items tol hne, ?_, ?_⟩
  · intro item bd bl hmin htol
    have h1 : addOneLandmark cd tol m item = some m := by
      unfold addOneLandmark
      rw [hmin]
      show (if bd < tol then some { m with
          tags := updateA m.tags bl (m.tagsGet bl ++ landmarkTags item) }
        else some m) = some m
      rw [if_neg htol]
    rw [addLandmarks_cons, h1]
    rfl
  · intro item bd bl hmin htol
    refine ⟨?_, ?_, ?_⟩
    · have h1 : addOneLandmark cd tol m item = some { m with
          tags := updateA m.tags bl (m.tagsGet bl ++ landmarkTags item) } := by
        unfold addOneLandmark
        rw [hmin]
        show (if bd < tol then some { m with
            tags := updateA m.tags bl (m.tagsGet bl ++ landmarkTags item) }
          else some m) = _
        rw [if_pos htol]
      rw [addLandmarks_cons, h1]
      rfl
    · have hm := minPair_mem hmin
      unfold landmarkCandidates at hm
      obtain ⟨⟨pl, pg⟩, hp, he⟩ := List.mem_map.mp hm
      injection he with he1 he2
      subst he2
      exact hasKey_of_mem hp
    · intro p hp
      have hc : (cd item.geo p.2, p.1) ∈ landmarkCandidates cd m item :=
        List.mem_map_of_mem _ hp
      exact minPair_le hmin _ hc

def c8Landmark : Landmark :=
  { geo := geoA, landmark := some "gates", amenity := none }

/-- Counterexample to C8 as stated: on the empty map, processing one
landmark fails (`min` of an empty sequence raises `ValueError`). -/
theorem addLandmarks_fails_on_empty_map :
    addLandmarks cdZero emptyCityMap [c8Landmark] 250 = none := rfl

/-- A one-location map used as concrete input for witnesses. -/
def oneLocMap : CityMap :=
  { geoLocations := [("a", geoA)],
    tags := [("a", ["label=a"])],
    distances := [] }

/-- Witness for the amended C8 on a concrete nonempty map. -/
theorem addLandmarks_spec_witness :
    oneLocMap.geoLocations ≠ [] ∧
    (∃ m', addLandmarks cdZero oneLocMap [c8Landmark] 250 = some m' ∧
       m'.geoLocations = oneLocMap.geoLocations ∧
       m'.distances = oneLocMap.distances) :=
  ⟨by decide,
   (addLandmarks_spec cdZero oneLocMap [c8Landmark] 250 (by decide)).1⟩

/-! ### C9: heuristic evaluation without a precomputed entry -/

/-- **C9** fails on the code: `StraightLineHeuristic.evaluate` initialises
its minimum with the sentinel `10000000.00`, so on a map where no
location carries the end tag (`targets` empty) it *returns the sentinel*
instead of failing: here the heuristic built for the never-occurring tag
`amenity=food` evaluates to `Except.ok 10000000` at a perfectly valid
state.  The claim's required behaviour (a defined explicit error) does
not happen. -/
theorem straightLine_sentinel :
    StraightLineHeuristic.evaluate cdZero
      (StraightLineHeuristic.make "amenity=food" oneLocMap)
      { location := "a" } = Except.ok 10000000 := rfl

/-! ### C5: `NoWaypointsHeuristic` -/

/-- **C5** fails on the code: `NoWaypointsHeuristic.evaluate` is
`raise Exception("Not implemented yet")` on every state, so it never
returns any precomputed cost (and `__init__` ends in
`return ucs.pastCosts`, which makes every construction raise `TypeError`
in Python — a constructor must return `None`). -/
theorem noWaypoints_evaluate_always_raises (s : State) :
    noWaypointsHeuristicEvaluate s = Except.error "Not implemented yet" := rfl

/-! ### C10: unknown locations in `ShortestPathProblem` -/

/-- **C10.** For every `ShortestPathProblem` and every label absent from
both the `tags` and `distances` dictionaries (in particular any label
never added to the map), `isEnd` is `false` and `successorsAndCosts` is
`[]`: the `defaultdict` reads produce the empty list / empty dict rather
than raising. -/
theorem shortestPath_unknown_location (p : ShortestPathProblem) (l : String)
    (h1 : lookupA p.cityMap.tags l = none)
    (h2 : lookupA p.cityMap.distances l = none) :
    p.isEnd { location := l } = false ∧
    p.successorsAndCosts { location := l } = [] := by
  constructor
  · unfold ShortestPathProblem.isEnd CityMap.tagsGet getDefault
    rw [h1]
    simp
  · unfold ShortestPathProblem.successorsAndCosts CityMap.distGet getDefault
    rw [h2]
    rfl

def c10Problem : ShortestPathProblem :=
  { startLocation := "a", endTag := "label=b", cityMap := oneLocMap }

/-- Witness for C10 at a concrete problem and a label never added. -/
theorem shortestPath_unknown_location_witness :
    lookupA c10Problem.cityMap.tags "zzz" = none ∧
    lookupA c10Problem.cityMap.distances "zzz" = none ∧
    (c10Problem.isEnd { location := "zzz" } = false ∧
     c10Problem.successorsAndCosts { location := "zzz" } = []) :=
  ⟨by decide, by decide,
   shortestPath_unknown_location c10Problem "zzz" (by decide) (by decide)⟩
